import Mathlib

/-!
Verification development for the SecretVaultService repository: a shallow
embedding of its cryptographic envelope, DEK cache and rotation engine,
secret CRUD and authentication/authorization services, together with
theorems settling the specification claims about them.

Bytes are modelled as `List Nat`; machine randomness (nonces, fresh keys)
is threaded as explicit parameters. External collaborators that are not
part of the repository (the platform AES-GCM primitive, Google KMS,
argon2, HMAC-SHA-256, the msgpack codec) are modelled by executable
functions that are faithful to their documented contracts; everything
else is translated directly from the source files.
-/

deriving instance DecidableEq for Except

/-- Byte-wise xor used by the stream-cipher part of the AEAD model. -/
def bxor (a b : Nat) : Nat := a ^^^ b

/-- Mixing fold used by the AEAD model to derive keystream and tag bytes. -/
def mixFold (seed : Nat) (l : List Nat) : Nat :=
  l.foldl (fun a b => a * 31 + b + 1) seed

/-- Model of the platform AES-256-GCM keystream (crypto.subtle / node
crypto, an external collaborator, not repository code): a deterministic
byte stream derived from key and nonce, of the requested length. -/
def gcmStream (key nonce : List Nat) (n : Nat) : List Nat :=
  (List.range n).map (fun i => (mixFold 7 (key ++ nonce) + i) % 256)

/-- Model of the 16-byte GCM authentication tag over key, nonce, associated
data and ciphertext. -/
def gcmTag (key nonce aad ct : List Nat) : List Nat :=
  (List.range 16).map (fun i => (mixFold 97 (key ++ nonce ++ aad ++ ct) + i) % 256)

/-- Model of the platform AEAD seal operation: ciphertext followed by the
16-byte tag, as returned by crypto.subtle.encrypt for AES-GCM. -/
def gcmEncrypt (key nonce aad data : List Nat) : List Nat :=
  let ct := List.zipWith bxor data (gcmStream key nonce data.length)
  ct ++ gcmTag key nonce aad ct

/-- Model of the platform AEAD open operation: splits off the trailing
16-byte tag, recomputes it, and fails (`none`) on mismatch. -/
def gcmDecrypt (key nonce aad sealed : List Nat) : Option (List Nat) :=
  if sealed.length < 16 then none
  else
    let ct := sealed.take (sealed.length - 16)
    let tag := sealed.drop (sealed.length - 16)
    if tag = gcmTag key nonce aad ct then
      some (List.zipWith bxor ct (gcmStream key nonce ct.length))
    else none

/-- AES256GCM.importKey (crypto/symmetric/aes256gcm.js): rejects key
material that is not exactly 32 bytes. -/
def AES256GCM.importKey (keyData : List Nat) : Except String (List Nat) :=
  if keyData.length ≠ 32 then
    .error "AES-256-GCM key must be 32 bytes (256 bits)"
  else .ok keyData

/-- AES256GCM.encrypt (crypto/symmetric/aes256gcm.js): imports the raw key
(32-byte check), then produces nonce (12B) followed by ciphertext and tag.
The freshly drawn 96-bit IV is threaded as the explicit `iv` argument. -/
def AES256GCM.encrypt (data key : List Nat) (aad : Option (List Nat))
    (iv : List Nat) : Except String (List Nat) :=
  match AES256GCM.importKey key with
  | .error e => .error e
  | .ok k => .ok (iv ++ gcmEncrypt k iv (aad.getD []) data)

/-- AES256GCM.decrypt (crypto/symmetric/aes256gcm.js): rejects input shorter
than the 12-byte IV, imports the key, splits IV from the sealed payload and
opens it; tag mismatch surfaces as an authentication failure. -/
def AES256GCM.decrypt (encryptedData key : List Nat)
    (aad : Option (List Nat)) : Except String (List Nat) :=
  if encryptedData.length < 12 then
    .error "Invalid encrypted data: too short to contain IV"
  else
    match AES256GCM.importKey key with
    | .error e => .error e
    | .ok k =>
      let iv := encryptedData.take 12
      let ct := encryptedData.drop 12
      match gcmDecrypt k iv (aad.getD []) ct with
      | some d => .ok d
      | none => .error "Decryption failed: authentication tag verification failed"

/-- Package header of the encrypted-at-rest envelope
(crypto/services/secretEncryptionService.js). -/
structure PkgHeader where
  alg : String
  version : Nat
  dekId : Nat
deriving DecidableEq, Repr

/-- Decoded encrypted package: header plus AEAD payload. The external
msgpack codec is an inverse pair on this structure; the stored bytes are
modelled by the structure itself. -/
structure EncPackage where
  header : PkgHeader
  payload : List Nat
deriving DecidableEq, Repr

/-- Model of MessagePack.encode applied to the header object, used as the
AAD on both the encrypt and the decrypt path. The codec is canonical, so a
deterministic injective byte encoding of the three fields is faithful. -/
def messagePackEncodeHeader (h : PkgHeader) : List Nat :=
  h.version :: h.dekId :: h.alg.length :: h.alg.data.map Char.toNat

/-- The single supported algorithm identifier
(SecretEncryptionService.SupportedAlgorithm). -/
def SupportedAlgorithm : String := "AES-256-GCM"

/-- In-memory state of KeyManagementService
(src/crypto/services/keyManagementService.js): the DEK cache `keys`
(static Map dekId to imported key material) and the `defaultDekId`
pointer. -/
structure KMState where
  keys : List (Nat × List Nat)
  defaultDekId : Nat
deriving DecidableEq, Repr

/-- Lookup in the DEK cache map. -/
def lookupKey (keys : List (Nat × List Nat)) (keyId : Nat) : Option (List Nat) :=
  (keys.find? (fun kv => kv.fst == keyId)).map (fun kv => kv.snd)

/-- Map.set on the DEK cache: replaces any binding of the same id. -/
def mapSet (keys : List (Nat × List Nat)) (keyId : Nat) (k : List Nat) :
    List (Nat × List Nat) :=
  (keyId, k) :: keys.filter (fun kv => !(kv.fst == keyId))

/-- KeyManagementService.getKey: rejects ids below 1, then resolves the id
in the cache, failing when the key is absent. -/
def KeyManagementService.getKey (s : KMState) (keyId : Nat) :
    Except String (List Nat) :=
  if keyId < 1 then .error "Key ID must be a valid number"
  else
    match lookupKey s.keys keyId with
    | some k => .ok k
    | none => .error "Encryption key not found"

/-- KeyManagementService.loadNewKey: imports the raw DEK into the cache
under the given id and makes that id the default. Defined in the source
but never invoked by any caller in the codebase. -/
def KeyManagementService.loadNewKey (s : KMState) (dekId : Nat)
    (dekKey : List Nat) : Except String KMState :=
  match AES256GCM.importKey dekKey with
  | .error e => .error e
  | .ok k => .ok { keys := mapSet s.keys dekId k, defaultDekId := dekId }

/-- SecretEncryptionService.encryptSecret: picks the argument DEK id or the
current default, builds the version-1 header, serializes it as AAD and
seals the plaintext under the cached DEK. The fresh nonce is threaded as
the explicit `nonce` argument. -/
def SecretEncryptionService.encryptSecret (km : KMState) (plaintext : List Nat)
    (dekIdArg : Option Nat) (nonce : List Nat) : Except String EncPackage :=
  if plaintext = [] then .error "Plaintext cannot be null or empty"
  else
    let dekId := dekIdArg.getD km.defaultDekId
    match KeyManagementService.getKey km dekId with
    | .error e => .error ("Failed to encrypt secret: " ++ e)
    | .ok dek =>
      let header : PkgHeader :=
        { alg := SupportedAlgorithm, version := 1, dekId := dekId }
      let headerBytes := messagePackEncodeHeader header
      match AES256GCM.encrypt plaintext dek (some headerBytes) nonce with
      | .error e => .error ("Failed to encrypt secret: " ++ e)
      | .ok payload => .ok { header := header, payload := payload }

/-- SecretEncryptionService.decryptSecret: validates the algorithm, the
version ceiling — which the source takes from
KeyManagementService.defaultDekId, not from the constant 1 — and the
expectedDekId/header.dekId match, then opens the payload with the header
bytes as AAD and returns plaintext plus header. -/
def SecretEncryptionService.decryptSecret (km : KMState) (pkg : EncPackage)
    (expectedDekId : Nat) : Except String (List Nat × PkgHeader) :=
  if pkg.header.alg ≠ SupportedAlgorithm then
    .error "Failed to decrypt secret: Unsupported algorithm"
  else if km.defaultDekId < pkg.header.version then
    .error "Failed to decrypt secret: Package version is not supported"
  else if expectedDekId ≠ pkg.header.dekId then
    .error "Failed to decrypt secret: DEK mismatch"
  else
    match KeyManagementService.getKey km pkg.header.dekId with
    | .error e => .error ("Failed to decrypt secret: " ++ e)
    | .ok dek =>
      match AES256GCM.decrypt pkg.payload dek
          (some (messagePackEncodeHeader pkg.header)) with
      | .error e => .error ("Failed to decrypt secret: " ++ e)
      | .ok d => .ok (d, pkg.header)

/-- Process configuration for the KMS adapter (config.js): the current
default KEK identifier and the set of KEK ids present in the KMS
configuration table (kms-config.js); looking up an id outside this set
fails at run time. -/
structure KmsConfig where
  defaultKekId : String
  knownKeks : List String
deriving DecidableEq, Repr

/-- Model of the external Google KMS encrypt primitive on the named KEK:
the wrapped bytes record which KEK sealed them. -/
def kmsWrap (kekId : String) (plaintextKey : List Nat) : List Nat :=
  kekId.length :: (kekId.data.map Char.toNat ++ plaintextKey)

/-- Model of the external Google KMS decrypt primitive: succeeds exactly
when the named KEK is the one that wrapped the bytes. -/
def kmsUnwrap (kekId : String) (w : List Nat) : Option (List Nat) :=
  match w with
  | [] => none
  | n :: rest =>
    if n = kekId.length ∧ rest.take n = kekId.data.map Char.toNat then
      some (rest.drop n)
    else none

/-- KeyManagementService.encryptDEK (production path): wraps the plaintext
DEK under the current default KEK, whose configuration entry must exist.
The CRC32C transport checks always pass in this model. -/
def KeyManagementService.encryptDEK (cfg : KmsConfig) (plaintextKey : List Nat) :
    Except String (List Nat) :=
  if cfg.knownKeks.contains cfg.defaultKekId then
    .ok (kmsWrap cfg.defaultKekId plaintextKey)
  else .error "Encrypt: unknown KEK configuration"

/-- KeyManagementService.decryptDEK (production path): unwraps under the
keyId argument when one is given, and otherwise under the current default
KEK — the source computes the key path from Config.KMS[defaultKekId] and
uses the passed kekId only as an override of the keyId component. -/
def KeyManagementService.decryptDEK (cfg : KmsConfig) (encryptedKey : List Nat)
    (kekId : Option String) : Except String (List Nat) :=
  if cfg.knownKeks.contains cfg.defaultKekId then
    match kmsUnwrap (kekId.getD cfg.defaultKekId) encryptedKey with
    | some p => .ok p
    | none => .error "Decrypt: KMS cannot decrypt under the named key"
  else .error "Decrypt: unknown KEK configuration"

/-- Persisted DEK row (models/dek.js): serial id, unique name, wrapped key
bytes, the KEK that wrapped them, version and active flag. `version := 1`
and `isActive := true` are the schema defaults. -/
structure DekRow where
  id : Nat
  name : String
  key : List Nat
  kekId : String
  version : Nat
  isActive : Bool
deriving DecidableEq, Repr

/-- Next serial id assigned by the database on insert. -/
def nextDekId (db : List DekRow) : Nat :=
  (db.map (fun d => d.id)).foldr max 0 + 1

/-- DEKService.generateDek (services/dek.service.js): wraps the fresh
32-byte raw key (threaded as `rawKey`) under the current default KEK and
inserts the row with kekId := Config.KMS.defaultKekId; version and active
flag come from the schema defaults. It returns the created row and the new
table contents. It never touches the in-memory cache. -/
def DEKService.generateDek (cfg : KmsConfig) (db : List DekRow) (name : String)
    (rawKey : List Nat) : Except String (DekRow × List DekRow) :=
  match KeyManagementService.encryptDEK cfg rawKey with
  | .error e => .error e
  | .ok encryptedKey =>
    let row : DekRow :=
      { id := nextDekId db, name := name, key := encryptedKey,
        kekId := cfg.defaultKekId, version := 1, isActive := true }
    .ok (row, db ++ [row])

/-- The POST /dek flow (DEKController.create): calls only
DEKService.generateDek; KeyManagementService.loadNewKey is never invoked
anywhere in the codebase, so the cache state `km` is returned unchanged. -/
def dekCreateOp (cfg : KmsConfig) (km : KMState) (db : List DekRow)
    (name : String) (rawKey : List Nat) :
    Except String (DekRow × List DekRow × KMState) :=
  match DEKService.generateDek cfg db name rawKey with
  | .error e => .error e
  | .ok (row, db2) => .ok (row, db2, km)

/-- DEKService.getAllDeks with includeKeys = true: the wrapped key of every row
is decrypted via KeyManagementService.decryptDEK with NO kekId argument,
i.e. under the current default KEK; the first failure aborts the whole
enumeration. -/
def DEKService.getAllDeks (cfg : KmsConfig) : List DekRow → Except String (List DekRow)
  | [] => .ok []
  | d :: rest =>
    match KeyManagementService.decryptDEK cfg d.key none with
    | .error e => .error e
    | .ok raw =>
      match DEKService.getAllDeks cfg rest with
      | .error e => .error e
      | .ok rs => .ok ({ d with key := raw } :: rs)

/-- Cache population step of KeyManagementService.#loadKeysFromDb: imports
each decrypted DEK (32-byte check) into the cache map. -/
def importAllKeys (keys : List (Nat × List Nat)) :
    List DekRow → Except String (List (Nat × List Nat))
  | [] => .ok keys
  | d :: rest =>
    match AES256GCM.importKey d.key with
    | .error e => .error e
    | .ok k => importAllKeys (mapSet keys d.id k) rest

/-- KeyManagementService.#loadKeysFromDb: decrypts and imports every DEK
row, then sets defaultDekId := deks[0]?.id || 1 — the id of the FIRST row
of the unordered enumeration (1 when the table is empty or that id is 0). -/
def KeyManagementService.loadKeysFromDb (cfg : KmsConfig) (db : List DekRow) :
    Except String KMState :=
  match DEKService.getAllDeks cfg db with
  | .error e => .error e
  | .ok deks =>
    match importAllKeys [] deks with
    | .error e => .error e
    | .ok ks =>
      .ok { keys := ks,
            defaultDekId :=
              match deks.head? with
              | some d => if d.id = 0 then 1 else d.id
              | none => 1 }

/-- Per-DEK failure entry of a KEK-rotation batch. -/
structure RotationFailure where
  id : Nat
  error : String
deriving DecidableEq, Repr

/-- Result object of KeyManagementService.reencryptAllDeksWithNewKek. -/
structure RotationResult where
  total : Nat
  success : Nat
  failures : List RotationFailure
deriving DecidableEq, Repr

/-- DEK.update of the rotation loop: sets the new wrapped bytes, the new
kekId and the new version on the row with the given id. -/
def dekDbUpdate (db : List DekRow) (id : Nat) (newKey : List Nat)
    (newKekId : String) (newVersion : Nat) : List DekRow :=
  db.map (fun d =>
    if d.id == id then
      { d with key := newKey, kekId := newKekId, version := newVersion }
    else d)

/-- Per-row loop of KeyManagementService.reencryptAllDeksWithNewKek over
the already-decrypted rows: re-wrap under the new KEK (config lookup of
newKekId must succeed), persist wrapped bytes, kekId and version+1, then
refresh the cache entry with the unchanged plaintext when present; errors
are collected per row and do not abort the batch. -/
def reencryptSteps (cfg : KmsConfig) (newKekId : String) :
    List DekRow → List DekRow → KMState → Nat → List RotationFailure →
      List DekRow × KMState × Nat × List RotationFailure
  | [], db, km, succ, fails => (db, km, succ, fails)
  | dek :: rest, db, km, succ, fails =>
    if cfg.knownKeks.contains newKekId then
      let db2 := dekDbUpdate db dek.id (kmsWrap newKekId dek.key) newKekId
        (dek.version + 1)
      match lookupKey km.keys dek.id with
      | some _ =>
        match AES256GCM.importKey dek.key with
        | .ok k =>
          reencryptSteps cfg newKekId rest db2
            { km with keys := mapSet km.keys dek.id k } (succ + 1) fails
        | .error e =>
          reencryptSteps cfg newKekId rest db2 km succ
            (fails ++ [{ id := dek.id, error := e }])
      | none => reencryptSteps cfg newKekId rest db2 km (succ + 1) fails
    else
      reencryptSteps cfg newKekId rest db km succ
        (fails ++ [{ id := dek.id, error := "Config lookup failed for new KEK" }])

/-- KeyManagementService.reencryptAllDeksWithNewKek: fetches ALL rows
decrypted (under the default KEK — getAllDeks passes no kekId), filters by
the optional oldKekId, and runs the per-row loop; a failure of the initial
fetch aborts the whole operation. -/
def KeyManagementService.reencryptAllDeksWithNewKek (cfg : KmsConfig)
    (km : KMState) (db : List DekRow) (newKekId : String)
    (oldKekId : Option String) :
    Except String (RotationResult × List DekRow × KMState) :=
  if newKekId = "" then .error "newKekId must be a non-empty string"
  else
    match DEKService.getAllDeks cfg db with
    | .error e => .error ("Failed to re-encrypt DEKs: " ++ e)
    | .ok deks =>
      let toRe :=
        match oldKekId with
        | some o => deks.filter (fun d => d.kekId == o)
        | none => deks
      let out := reencryptSteps cfg newKekId toRe db km 0 []
      .ok ({ total := toRe.length, success := out.2.2.1,
             failures := out.2.2.2 }, out.1, out.2.1)

/-- Persisted Secret row (models/secret.js): uuid id, unique name, the
encrypted package (data column), the dekId column and the lastRotation
marker (modelled as a Bool: set on rotation updates). -/
structure SecretRow where
  id : String
  name : String
  data : EncPackage
  dekId : Nat
  lastRotation : Bool
deriving DecidableEq, Repr

/-- Result object of SecretService.get; `rotationScheduled` records
whether the fire-and-forget #scheduleRotation call was made. -/
structure SecretGetResult where
  name : String
  data : List Nat
  dekId : Nat
  rotationScheduled : Bool
deriving DecidableEq, Repr

/-- Secret.findOne with the id-or-name condition of SecretService.get. -/
def SecretService.findOne (db : List SecretRow) (identifier : String)
    (isUUID : Bool) : Option SecretRow :=
  db.find? (fun s => (if isUUID then s.id else s.name) == identifier)

/-- SecretService.get (services/secret.service.js): finds the row, decrypts
its package with expectedDekId taken from the dekId column of the row, and — when the
dekId embedded in the envelope header differs from the current default DEK-id — fires
the background #scheduleRotation (recorded in `rotationScheduled`). -/
def SecretService.get (km : KMState) (db : List SecretRow) (identifier : String)
    (isUUID : Bool) : Except String SecretGetResult :=
  if identifier = "" then .error "Secret name cannot be empty"
  else
    match SecretService.findOne db identifier isUUID with
    | none => .error "Secret not found"
    | some secret =>
      match SecretEncryptionService.decryptSecret km secret.data secret.dekId with
      | .error e => .error ("Failed to decrypt secret: " ++ e)
      | .ok (decrypted, header) =>
        .ok { name := secret.name, data := decrypted, dekId := secret.dekId,
              rotationScheduled := header.dekId != km.defaultDekId }

/-- SecretService.update: re-encrypts the plaintext under the current
default DEK (encryptSecret with no dekId argument) and persists the new
package together with dekId := defaultDekId; a rotation update also sets
lastRotation. Fails when no row matches the id. -/
def SecretService.update (km : KMState) (db : List SecretRow) (id : String)
    (name : String) (newPlaintext : List Nat) (isRotation : Bool)
    (nonce : List Nat) : Except String (List SecretRow) :=
  if id = "" then .error "Secret id cannot be empty"
  else if name = "" then .error "Secret name cannot be empty"
  else if newPlaintext = [] then .error "Plaintext data cannot be empty"
  else
    match SecretEncryptionService.encryptSecret km newPlaintext none nonce with
    | .error e => .error ("Failed to update secret: " ++ e)
    | .ok pkg =>
      if db.any (fun s => s.id == id) then
        .ok (db.map (fun s =>
          if s.id == id then
            { s with
              data := pkg
              dekId := km.defaultDekId
              lastRotation := isRotation || s.lastRotation }
          else s))
      else .error "Secret not found"

/-- SecretService.#scheduleRotation: the background task re-encrypts the
secret via update with isRotation := true; errors are caught and logged
with no retry, leaving the table unchanged. -/
def SecretService.scheduleRotation (km : KMState) (db : List SecretRow)
    (secretId secretName : String) (decryptedData nonce : List Nat) :
    List SecretRow :=
  match SecretService.update km db secretId secretName decryptedData true nonce with
  | .ok db2 => db2
  | .error _ => db

/-! Auth layer. Service-level strings that the code splits and joins
character-wise (comma-joined role and permission columns) are modelled as
`List Char`. -/

/-- Persisted Client row (models/client.js): roles and permissions are the
comma-joined varchar columns. -/
structure ClientRow where
  id : String
  name : String
  hashedSecret : String
  isActive : Bool
  roles : List Char
  permissions : List Char
deriving DecidableEq, Repr

/-- Model of the external argon2id hash (deterministic stand-in; the salt
plays no role in any claim). -/
def argonHash (secret : String) : String := "argon2id$" ++ secret

/-- Model of argon2.verify: succeeds exactly on the hash of the supplied
secret. -/
def argonVerify (hash secret : String) : Bool := hash == argonHash secret

/-- Array.prototype.join with a comma separator. -/
def joinComma : List (List Char) → List Char
  | [] => []
  | [r] => r
  | r :: rest => r ++ ',' :: joinComma rest

/-- String.prototype.split on a comma. -/
def splitComma : List Char → List (List Char)
  | [] => [[]]
  | c :: cs =>
    if c = ',' then [] :: splitComma cs
    else
      match splitComma cs with
      | [] => [[c]]
      | g :: gs => (c :: g) :: gs

/-- The roles.split(',').filter(r => r) idiom: split the stored column and
drop empty fragments. -/
def rolesFromStored (s : List Char) : List (List Char) :=
  (splitComma s).filter (fun g => !g.isEmpty)

/-- ClientService.createClient: hashes the secret and stores roles and
permissions as comma-joined strings. Name uniqueness is left to the
database. -/
def ClientService.createClient (db : List ClientRow) (id name secret : String)
    (roles permissions : List (List Char)) : Except (Nat × String) (ClientRow × List ClientRow) :=
  if name = "" ∨ secret = "" then .error (400, "Name and secret are required")
  else
    let row : ClientRow :=
      { id := id, name := name, hashedSecret := argonHash secret,
        isActive := true, roles := joinComma roles,
        permissions := joinComma permissions }
    .ok (row, db ++ [row])

/-- Successful authentication result: the data that goes into the signed
token payload. -/
structure AuthSuccess where
  clientId : String
  tokenRoles : List (List Char)
  tokenPermissions : List (List Char)
deriving DecidableEq, Repr

/-- ClientService.authenticate (services/client.service.js): fetches the
client by name; a missing or inactive client and a failed hash check all
produce the same 401 response with the identical message. On success the
token payload carries the split role and permission lists. -/
def ClientService.authenticate (db : List ClientRow) (name secret : String) :
    Except (Nat × String) AuthSuccess :=
  if name = "" ∨ secret = "" then .error (400, "Id and secret are required")
  else
    match db.find? (fun c => c.name == name) with
    | none => .error (401, "Invalid client credentials")
    | some c =>
      if !c.isActive then .error (401, "Invalid client credentials")
      else if !argonVerify c.hashedSecret secret then
        .error (401, "Invalid client credentials")
      else
        .ok { clientId := c.id,
              tokenRoles := rolesFromStored c.roles,
              tokenPermissions := rolesFromStored c.permissions }

/-- Validator chain applied to one role item in ClientController.register:
string of length at least 1 and at most 20. -/
def validRoleItem (r : List Char) : Bool :=
  decide (1 ≤ r.length) && decide (r.length ≤ 20)

/-- Validator chain applied to the roles array in
ClientController.register: at most 10 items, unique, each item a string of
length 1..20 — no check rejects a comma inside an item. -/
def validRolesArray (l : List (List Char)) : Bool :=
  decide (l.length ≤ 10) && (l.dedup.length == l.length) && l.all validRoleItem

/-- Options object of the Authorize middleware
(middlewares/auth.middleware.js). -/
structure AuthOptions where
  roles : List String
  permissions : List String
  requireAllPermissions : Bool
deriving DecidableEq, Repr

/-- Permission portion of the Authorize middleware: requireAllPermissions
demands containment of the whole required set, otherwise any shared
permission suffices. -/
def permissionGate (opts : AuthOptions) (clientPermissions : List String) :
    Except (Nat × String) Unit :=
  if opts.permissions = [] then .ok ()
  else if opts.requireAllPermissions then
    if opts.permissions.all (fun p => clientPermissions.contains p) then .ok ()
    else .error (403, "Required all permissions: " ++
      String.intercalate ", " opts.permissions)
  else
    if opts.permissions.any (fun p => clientPermissions.contains p) then .ok ()
    else .error (403, "Required any of these permissions: " ++
      String.intercalate ", " opts.permissions)

/-- Role/permission gating portion of the Authorize middleware, applied
after the bearer token has been verified and the client found active: a
non-empty required role set passes exactly when some required role is
literally contained in the role list of the client. -/
def authorizeGate (opts : AuthOptions) (clientRoles clientPermissions : List String) :
    Except (Nat × String) Unit :=
  if opts.roles = [] then permissionGate opts clientPermissions
  else if opts.roles.any (fun r => clientRoles.contains r) then
    permissionGate opts clientPermissions
  else .error (403, "Required roles: " ++ String.intercalate ", " opts.roles)

/-- Token payload (auth/jsonwebtoken.js): claims carried by the compact
signed token. -/
structure JwtPayload where
  clientId : String
  roles : List (List Char)
  permissions : List (List Char)
  exp : Option Nat
deriving DecidableEq, Repr

/-- Byte encoding of the payload for signing purposes. -/
def payloadCode (p : JwtPayload) : List Nat :=
  p.clientId.data.map Char.toNat ++
    (p.roles.map (fun r => r.map Char.toNat)).flatten ++ [p.roles.length] ++
    (p.permissions.map (fun r => r.map Char.toNat)).flatten ++
    [p.permissions.length] ++
    (match p.exp with | some e => [1, e] | none => [0])

/-- Model of the external HMAC-SHA-256 signature over the protected header
and payload, as computed by the jose library with the process signing key. -/
def hmacSHA256 (key : List Nat) (msg : List Nat) : Nat :=
  mixFold 17 (key ++ [257] ++ msg)

/-- Compact signed token: protected-header algorithm, payload and
signature. -/
structure JwtToken where
  alg : String
  payload : JwtPayload
  sig : Nat
deriving DecidableEq, Repr

/-- JWT.sign (auth/jsonwebtoken.js): sets the HS256 protected header and —
only when a truthy expiresIn is configured — the exp claim at now plus the
lifetime, then signs with the HMAC key. -/
def JWT.sign (payload : JwtPayload) (key : List Nat) (expiresIn : Option Nat)
    (now : Nat) : JwtToken :=
  let p2 : JwtPayload :=
    { payload with
      exp := match expiresIn with
             | some n => if n = 0 then none else some (now + n)
             | none => none }
  { alg := "HS256", payload := p2,
    sig := hmacSHA256 key ("HS256".data.map Char.toNat ++ payloadCode p2) }

/-- Result object of JWT.verify. -/
structure VerifyResult where
  isValid : Bool
  payload : Option JwtPayload
deriving DecidableEq, Repr

/-- Expiry check of the jose jwtVerify routine: the exp claim is validated
only when present; a payload without exp passes. -/
def expOk (exp : Option Nat) (now : Nat) : Bool :=
  match exp with
  | some e => decide (now < e)
  | none => true

/-- JWT.verify (auth/jsonwebtoken.js, delegating to jose jwtVerify with an
HMAC-SHA-256 key): accepts exactly the tokens whose protected header names
HS256, whose signature matches under the key, and whose exp claim — if any
— lies in the future; any failure yields isValid = false. -/
def JWT.verify (tok : JwtToken) (key : List Nat) (now : Nat) : VerifyResult :=
  if tok.alg == "HS256"
      && (tok.sig == hmacSHA256 key (tok.alg.data.map Char.toNat ++ payloadCode tok.payload))
      && expOk tok.payload.exp now then
    { isValid := true, payload := some tok.payload }
  else { isValid := false, payload := none }

/-- Header built by encryptSecret when no dekId argument is given. -/
def defaultHeader (km : KMState) : PkgHeader :=
  { alg := SupportedAlgorithm, version := 1, dekId := km.defaultDekId }

/-! Concrete fixtures used to evaluate the code on specific inputs. -/

/-- A 32-byte key fixture. -/
def kA : List Nat := List.replicate 32 1

/-- A second 32-byte key fixture. -/
def kB : List Nat := List.replicate 32 2

/-- A third 32-byte key fixture. -/
def k32 : List Nat := List.replicate 32 9

/-- A fresh 32-byte raw DEK fixture. -/
def kRaw32 : List Nat := List.replicate 32 5

/-- A 12-byte nonce fixture. -/
def iv12 : List Nat := List.replicate 12 3

/-- KMS configuration fixture with two known KEKs and default kek1. -/
def cfgA : KmsConfig := { defaultKekId := "kek1", knownKeks := ["kek1", "kek2"] }

/-- One-DEK table fixture: DEK id 1 wrapped under kek1. -/
def dbA : List DekRow :=
  [{ id := 1, name := "k1", key := kmsWrap "kek1" kA, kekId := "kek1",
     version := 1, isActive := true }]

/-- Cache fixture matching dbA: id 1 imported, default pointer 1. -/
def kmA : KMState := { keys := [(1, kA)], defaultDekId := 1 }

/-- The DEK row that generateDek inserts on the dbA fixture with name k2 and
raw key kRaw32: serial id 2, schema defaults version 1 and active. -/
def rowNew : DekRow :=
  { id := 2, name := "k2", key := kmsWrap "kek1" kRaw32, kekId := "kek1",
    version := 1, isActive := true }

/-- Cache fixture for the version-check evaluation: only DEK 1 is cached but
the default pointer is 2. -/
def kmC2 : KMState := { keys := [(1, k32)], defaultDekId := 2 }

/-- Same cache with default pointer 1. -/
def kmC2one : KMState := { keys := [(1, k32)], defaultDekId := 1 }

/-- Envelope header fixture carrying version 2 (a forward version). -/
def hdrV2 : PkgHeader := { alg := "AES-256-GCM", version := 2, dekId := 1 }

/-- Encrypted package fixture with the version-2 header, sealed under k32
with the header bytes as AAD. -/
def pkgV2 : EncPackage :=
  { header := hdrV2,
    payload := iv12 ++ gcmEncrypt k32 iv12 (messagePackEncodeHeader hdrV2) [10, 20, 30] }

/-- Two-DEK table fixture: ids 1 and 2, both wrapped under the default
kek1, returned in table order. -/
def dbC3 : List DekRow :=
  [{ id := 1, name := "k1", key := kmsWrap "kek1" kA, kekId := "kek1",
     version := 1, isActive := true },
   { id := 2, name := "k2", key := kmsWrap "kek1" kB, kekId := "kek1",
     version := 1, isActive := true }]

/-- The cache state produced by loadKeysFromDb on dbC3. -/
def kmC3 : KMState := { keys := [(2, kB), (1, kA)], defaultDekId := 1 }

/-- KMS configuration fixture whose default KEK is kekB. -/
def cfgB : KmsConfig :=
  { defaultKekId := "kekB", knownKeks := ["kekA", "kekB", "kekC"] }

/-- One-DEK table fixture for rotation: the row is wrapped under kekA,
which differs from the configured default kekB. -/
def dbB : List DekRow :=
  [{ id := 1, name := "k1", key := kmsWrap "kekA" kA, kekId := "kekA",
     version := 1, isActive := true }]

/-- Cache fixture accompanying dbB. -/
def kmB : KMState := { keys := [(1, kA)], defaultDekId := 1 }

/-- Cache fixture for the opportunistic-rotation scenario: DEKs 1 and 2
cached, default pointer 2. -/
def kmW : KMState := { keys := [(1, kA), (2, kB)], defaultDekId := 2 }

/-- Header fixture of a package sealed under DEK 1. -/
def hdrW : PkgHeader := { alg := "AES-256-GCM", version := 1, dekId := 1 }

/-- Secret row fixture: a secret encrypted under DEK 1 while the default
DEK is 2. -/
def rowW : SecretRow :=
  { id := "s1", name := "s1",
    data := { header := hdrW,
              payload := iv12 ++ gcmEncrypt kA iv12 (messagePackEncodeHeader hdrW) [7, 8, 9] },
    dekId := 1, lastRotation := false }

/-- Secret table fixture holding only rowW. -/
def dbW : List SecretRow := [rowW]

/-- Client table fixture: an inactive client and an active client whose
stored hash is the hash of pw. -/
def dbC9 : List ClientRow :=
  [{ id := "id-inact", name := "inact", hashedSecret := argonHash "pw",
     isActive := false, roles := [], permissions := [] },
   { id := "id-alice", name := "alice", hashedSecret := argonHash "pw",
     isActive := true, roles := [], permissions := [] }]

/-- Authorize options fixture requiring the admin role. -/
def optsAdmin : AuthOptions :=
  { roles := ["admin"], permissions := [], requireAllPermissions := false }

/-- Authorize options fixture of the dek routes: requires the literal role
star. -/
def optsStar : AuthOptions :=
  { roles := ["*"], permissions := [], requireAllPermissions := false }

/-- HMAC key fixture. -/
def keyJ : List Nat := [1, 2, 3, 4]

/-- Token payload fixture without an exp claim. -/
def plJ : JwtPayload :=
  { clientId := "c1", roles := [], permissions := [], exp := none }

/-! ### Theorems -/

theorem gcmStream_length (key nonce : List Nat) (n : Nat) :
    (gcmStream key nonce n).length = n := by
  simp [gcmStream]

theorem gcmTag_length (key nonce aad ct : List Nat) :
    (gcmTag key nonce aad ct).length = 16 := by
  simp [gcmTag]

theorem take_len_append {α : Type} (a b : List α) : (a ++ b).take a.length = a := by
  induction a with
  | nil => simp
  | cons x xs ih => simp [ih]

theorem drop_len_append {α : Type} (a b : List α) : (a ++ b).drop a.length = b := by
  induction a with
  | nil => simp
  | cons x xs ih => simp [ih]

theorem zipWith_bxor_cancel :
    ∀ (d ks : List Nat), d.length = ks.length →
      List.zipWith bxor (List.zipWith bxor d ks) ks = d := by
  intro d
  induction d with
  | nil => intro ks _; simp
  | cons x xs ih =>
    intro ks h
    cases ks with
    | nil => simp at h
    | cons k kt =>
      simp only [List.zipWith]
      have hx : bxor (bxor x k) k = x := by
        simp [bxor, Nat.xor_assoc, Nat.xor_self, Nat.xor_zero]
      rw [hx, ih kt (by simpa using h)]

theorem gcmDecrypt_append_tag (key nonce aad ct : List Nat) :
    gcmDecrypt key nonce aad (ct ++ gcmTag key nonce aad ct) =
      some (List.zipWith bxor ct (gcmStream key nonce ct.length)) := by
  simp only [gcmDecrypt]
  rw [List.length_append, gcmTag_length]
  have hge : ¬ ct.length + 16 < 16 := by omega
  have h16 : ct.length + 16 - 16 = ct.length := by omega
  simp only [hge, if_false, h16, take_len_append, drop_len_append]
  simp

theorem gcmDecrypt_gcmEncrypt (key nonce aad data : List Nat) :
    gcmDecrypt key nonce aad (gcmEncrypt key nonce aad data) = some data := by
  have hctlen :
      (List.zipWith bxor data (gcmStream key nonce data.length)).length
        = data.length := by
    simp [List.length_zipWith, gcmStream_length]
  simp only [gcmEncrypt]
  rw [gcmDecrypt_append_tag, hctlen,
    zipWith_bxor_cancel data _ (gcmStream_length key nonce data.length).symm]

theorem AES256GCM.decrypt_encrypt (data key iv : List Nat)
    (aad : Option (List Nat)) (hk : key.length = 32) (hiv : iv.length = 12) :
    (AES256GCM.encrypt data key aad iv).bind
      (fun sealed => AES256GCM.decrypt sealed key aad) = .ok data := by
  simp only [AES256GCM.encrypt, AES256GCM.importKey, hk]
  simp only [ne_eq, not_true_eq_false, reduceIte, Except.bind]
  simp only [AES256GCM.decrypt, AES256GCM.importKey, hk]
  have hlen : (iv ++ gcmEncrypt key iv (aad.getD []) data).length =
      12 + (gcmEncrypt key iv (aad.getD []) data).length := by
    simp [hiv]
  have hge : ¬ (iv ++ gcmEncrypt key iv (aad.getD []) data).length < 12 := by
    rw [hlen]; omega
  simp only [hge, if_false, ne_eq, not_true_eq_false, reduceIte]
  have htake : (iv ++ gcmEncrypt key iv (aad.getD []) data).take 12 = iv := by
    rw [← hiv, take_len_append]
  have hdrop : (iv ++ gcmEncrypt key iv (aad.getD []) data).drop 12 =
      gcmEncrypt key iv (aad.getD []) data := by
    rw [← hiv, drop_len_append]
  rw [htake, hdrop, gcmDecrypt_gcmEncrypt]

theorem list_any_of_find? {α : Type} (p : α → Bool) :
    ∀ (l : List α) (a : α), l.find? p = some a → l.any p = true := by
  intro l
  induction l with
  | nil => intro a h; simp [List.find?] at h
  | cons x t ih =>
    intro a h
    cases hx : p x with
    | true => simp [List.any_cons, hx]
    | false =>
      rw [List.find?_cons_of_neg _ (by simp [hx])] at h
      simp [List.any_cons, hx, ih a h]

theorem find?_map_pred {α : Type} (f : α → α) (p : α → Bool)
    (hp : ∀ x, p (f x) = p x) :
    ∀ (l : List α) (a : α), l.find? p = some a →
      (l.map f).find? p = some (f a) := by
  intro l
  induction l with
  | nil => intro a h; simp [List.find?] at h
  | cons x t ih =>
    intro a h
    cases hx : p x with
    | true =>
      rw [List.find?_cons_of_pos _ (by simp [hx])] at h
      cases h
      simp only [List.map_cons]
      rw [List.find?_cons_of_pos _ (by simp [hp, hx])]
    | false =>
      rw [List.find?_cons_of_neg _ (by simp [hx])] at h
      simp only [List.map_cons]
      rw [List.find?_cons_of_neg _ (by simp [hp, hx])]
      exact ih a h

theorem AES256GCM.decrypt_of_seal (data key iv : List Nat)
    (aad : Option (List Nat)) (hk : key.length = 32) (hiv : iv.length = 12) :
    AES256GCM.decrypt (iv ++ gcmEncrypt key iv (aad.getD []) data) key aad
      = .ok data := by
  simp only [AES256GCM.decrypt, AES256GCM.importKey, hk]
  have hlen : (iv ++ gcmEncrypt key iv (aad.getD []) data).length =
      12 + (gcmEncrypt key iv (aad.getD []) data).length := by
    simp [hiv]
  have hge : ¬ (iv ++ gcmEncrypt key iv (aad.getD []) data).length < 12 := by
    rw [hlen]; omega
  simp only [hge, if_false, ne_eq, not_true_eq_false, reduceIte]
  have htake : (iv ++ gcmEncrypt key iv (aad.getD []) data).take 12 = iv := by
    rw [← hiv, take_len_append]
  have hdrop : (iv ++ gcmEncrypt key iv (aad.getD []) data).drop 12 =
      gcmEncrypt key iv (aad.getD []) data := by
    rw [← hiv, drop_len_append]
  rw [htake, hdrop, gcmDecrypt_gcmEncrypt]

theorem encryptSecret_ok (km : KMState) (P nonce dk : List Nat)
    (h4 : KeyManagementService.getKey km km.defaultDekId = .ok dk)
    (h5 : dk.length = 32) (h8 : P ≠ []) :
    SecretEncryptionService.encryptSecret km P none nonce =
      .ok { header := defaultHeader km,
            payload := nonce ++
              gcmEncrypt dk nonce (messagePackEncodeHeader (defaultHeader km)) P } := by
  simp only [SecretEncryptionService.encryptSecret, h8, if_neg, Option.getD_none, h4,
    AES256GCM.encrypt, AES256GCM.importKey, h5, ne_eq, not_true_eq_false, reduceIte,
    defaultHeader, Option.getD_some]

theorem decryptSecret_roundtrip (km : KMState) (P nonce dk : List Nat)
    (h4 : KeyManagementService.getKey km km.defaultDekId = .ok dk)
    (h5 : dk.length = 32) (h6 : nonce.length = 12) (h7 : 1 ≤ km.defaultDekId) :
    SecretEncryptionService.decryptSecret km
      { header := defaultHeader km,
        payload := nonce ++
          gcmEncrypt dk nonce (messagePackEncodeHeader (defaultHeader km)) P }
      km.defaultDekId = .ok (P, defaultHeader km) := by
  have hv : ¬ km.defaultDekId < 1 := by omega
  simp only [SecretEncryptionService.decryptSecret, defaultHeader, ne_eq,
    not_true_eq_false, reduceIte, hv, if_false, h4]
  have hseal := AES256GCM.decrypt_of_seal P dk nonce
    (some (messagePackEncodeHeader
      { alg := SupportedAlgorithm, version := 1, dekId := km.defaultDekId }))
    h5 h6
  simp only [Option.getD_some] at hseal
  rw [hseal]

set_option maxRecDepth 4000 in
/-- C8: for every plaintext, every 32-byte key and every optional
associated data, AES256GCM.decrypt inverts AES256GCM.encrypt under the
same key and associated data, for any 12-byte nonce drawn by the CSPRNG. -/
theorem C8_aes256gcm_roundtrip (data key iv : List Nat)
    (aad : Option (List Nat)) (hk : key.length = 32) (hiv : iv.length = 12) :
    (AES256GCM.encrypt data key aad iv).bind
      (fun sealed => AES256GCM.decrypt sealed key aad) = .ok data := by
  simp only [AES256GCM.encrypt, AES256GCM.importKey, hk, ne_eq,
    not_true_eq_false, reduceIte, Except.bind]
  exact AES256GCM.decrypt_of_seal data key iv aad hk hiv

/-- Witness for C8 at a concrete plaintext, key, nonce and associated
data. -/
theorem C8_aes256gcm_roundtrip_witness :
    (List.replicate 32 4 : List Nat).length = 32 ∧
      (List.replicate 12 1 : List Nat).length = 12 ∧
      (AES256GCM.encrypt [1, 2, 3] (List.replicate 32 4) (some [9])
          (List.replicate 12 1)).bind
        (fun sealed => AES256GCM.decrypt sealed (List.replicate 32 4) (some [9]))
        = .ok [1, 2, 3] :=
  ⟨by decide, by decide,
    C8_aes256gcm_roundtrip [1, 2, 3] (List.replicate 32 4) (List.replicate 12 1)
      (some [9]) (by decide) (by decide)⟩

/-- C1: evaluation of the POST /dek flow on a concrete state. The row is
persisted with the wrapped key, kekId equal to the current default KEK and
version 1, and receives the fresh id 2 — but the in-memory cache still has
no key under id 2 and the default DEK-id remains 1, because generateDek
never calls loadNewKey. -/
theorem C1_generateDek_leaves_cache_unchanged :
    dekCreateOp cfgA kmA dbA "k2" kRaw32 = .ok (rowNew, dbA ++ [rowNew], kmA) ∧
      rowNew.id = 2 ∧ rowNew.version = 1 ∧ rowNew.kekId = cfgA.defaultKekId ∧
      kmA.defaultDekId = 1 ∧ lookupKey kmA.keys rowNew.id = none := by
  decide

set_option maxRecDepth 4000 in
/-- C2: evaluation of decryptSecret on a package whose header carries
version 2. With the default DEK-id at 2 the package is accepted and
decrypted; with the default DEK-id at 1 the very same package is rejected
— the version ceiling is the runtime default DEK-id, not the constant 1. -/
theorem C2_version_check_depends_on_defaultDekId :
    hdrV2.version = 2 ∧
      SecretEncryptionService.decryptSecret kmC2 pkgV2 1 = .ok ([10, 20, 30], hdrV2) ∧
      SecretEncryptionService.decryptSecret kmC2one pkgV2 1 =
        .error "Failed to decrypt secret: Package version is not supported" := by
  decide

set_option maxRecDepth 4000 in
/-- C3: evaluation of the startup cache load on a two-row DEK table with
ids 1 and 2 in table order. The cache receives both keys, but the default
DEK-id is set to the FIRST row id 1, not to the highest id 2. -/
theorem C3_default_dek_is_first_row_not_highest :
    KeyManagementService.loadKeysFromDb cfgA dbC3 = .ok kmC3 ∧
      kmC3.defaultDekId = 1 ∧
      (dbC3.map (fun d => d.id)).foldr max 0 = 2 ∧
      kmC3.defaultDekId ≠ (dbC3.map (fun d => d.id)).foldr max 0 := by
  decide

set_option maxRecDepth 4000 in
/-- C4: evaluation of a KEK rotation to kekC on a table whose single DEK
row is wrapped under kekA while the configured default KEK is kekB. The
initial fetch unwraps every row under the default KEK — not under the
own kekId of the row — so the whole operation fails and the row is never
re-wrapped. -/
theorem C4_rotation_unwraps_under_default_kek :
    KeyManagementService.reencryptAllDeksWithNewKek cfgB kmB dbB "kekC" none =
        .error "Failed to re-encrypt DEKs: Decrypt: KMS cannot decrypt under the named key" ∧
      dbB.map (fun d => d.kekId) = ["kekA"] ∧
      cfgB.defaultKekId = "kekB" := by
  decide

/-- C5 counterexample: a client whose role set is exactly the wildcard
star is REJECTED by the guard when the operation requires the admin role —
the claim says the wildcard grants any role check. -/
theorem C5_wildcard_counterexample :
    authorizeGate optsAdmin ["*"] [] = .error (403, "Required roles: admin") := by
  decide

/-- C5 amended: the guard gives the wildcard no special treatment. For an
operation with a non-empty required role set (and no required
permissions), it accepts exactly when the role set of the client intersects the
required set; a client holding only the star role passes only checks that
require the literal star role. -/
theorem C5_roles_intersection (opts : AuthOptions)
    (clientRoles clientPermissions : List String)
    (hr : opts.roles ≠ []) (hp : opts.permissions = []) :
    authorizeGate opts clientRoles clientPermissions = .ok () ↔
      ∃ r ∈ opts.roles, r ∈ clientRoles := by
  simp only [authorizeGate, hr, if_false, permissionGate, hp, if_pos, reduceIte]
  by_cases h : opts.roles.any (fun r => clientRoles.contains r)
  · simp only [h, if_true, true_iff]
    simp only [List.any_eq_true, List.elem_iff] at h
    exact h
  · simp only [h, if_false]
    constructor
    · intro hc; cases hc
    · intro hex
      exact absurd (by simpa [List.any_eq_true, List.elem_iff] using hex) h

/-- Witness for C5 at the dek routes options: the admin client holding the
literal star role passes the star role requirement. -/
theorem C5_roles_intersection_witness :
    authorizeGate optsStar ["*"] [] = .ok () :=
  (C5_roles_intersection optsStar ["*"] [] (by decide) rfl).mpr
    ⟨"*", by decide, by decide⟩

/-- C6 counterexample: a token produced by the sign routine of the service itself
with no lifetime configured carries no exp claim, yet verification reports
it valid at an arbitrarily late time — the claim says a token lacking exp
is never reported valid. -/
theorem C6_missing_exp_counterexample :
    (JWT.verify (JWT.sign plJ keyJ none 1000) keyJ 999999999).isValid = true ∧
      (JWT.sign plJ keyJ none 1000).payload.exp = none := by
  decide

/-- C6 amended: verification accepts exactly the tokens whose protected
header names HS256, whose HMAC signature matches, and whose exp claim —
WHEN PRESENT — lies strictly in the future; a token without an exp claim
passes the expiry check. -/
theorem C6_verify_characterization (tok : JwtToken) (key : List Nat) (now : Nat) :
    (JWT.verify tok key now).isValid = true ↔
      (tok.alg = "HS256" ∧
        tok.sig = hmacSHA256 key (tok.alg.data.map Char.toNat ++ payloadCode tok.payload) ∧
        (tok.payload.exp = none ∨ ∃ e, tok.payload.exp = some e ∧ now < e)) := by
  simp only [JWT.verify]
  by_cases hC : (tok.alg == "HS256"
      && (tok.sig == hmacSHA256 key (tok.alg.data.map Char.toNat ++ payloadCode tok.payload))
      && expOk tok.payload.exp now) = true
  · simp only [hC, if_true]
    simp only [Bool.and_eq_true, beq_iff_eq] at hC
    obtain ⟨⟨h1, h2⟩, h3⟩ := hC
    simp only [true_iff]
    refine ⟨h1, h2, ?_⟩
    cases hexp : tok.payload.exp with
    | none => exact Or.inl rfl
    | some e =>
      right
      refine ⟨e, rfl, ?_⟩
      rw [hexp] at h3
      simpa [expOk] using h3
  · rw [if_neg hC]
    simp only [Bool.and_eq_true, beq_iff_eq, not_and] at hC
    constructor
    · intro h; cases h
    · rintro ⟨h1, h2, h3⟩
      exfalso
      apply hC ⟨h1, h2⟩
      rcases h3 with h3 | ⟨e, he, hlt⟩
      · simp [expOk, h3]
      · simp [expOk, he, hlt]

/-- C9: every failing login — unknown client name, inactive client, or a
secret that does not match the stored hash — produces the same 401 status
with the identical message, revealing none of the three causes. -/
theorem C9_uniform_invalid_credentials (db : List ClientRow) (name secret : String)
    (hn : name ≠ "") (hs : secret ≠ "")
    (hfail : db.find? (fun c => c.name == name) = none ∨
      ∃ c, db.find? (fun c2 => c2.name == name) = some c ∧
        (c.isActive = false ∨ argonVerify c.hashedSecret secret = false)) :
    ClientService.authenticate db name secret =
      .error (401, "Invalid client credentials") := by
  simp only [ClientService.authenticate, hn, hs, or_self, if_false, false_or, reduceIte]
  rcases hfail with h | ⟨c, hc, hcase⟩
  · rw [h]
  · rw [hc]
    rcases hcase with h1 | h1
    · simp [h1]
    · cases hA : c.isActive <;> simp [hA, h1]

/-- Witness for C9: on a concrete client table, all three failure causes
yield the identical response. -/
theorem C9_uniform_invalid_credentials_witness :
    ClientService.authenticate dbC9 "ghost" "pw" = .error (401, "Invalid client credentials") ∧
      ClientService.authenticate dbC9 "inact" "pw" = .error (401, "Invalid client credentials") ∧
      ClientService.authenticate dbC9 "alice" "wrong" = .error (401, "Invalid client credentials") :=
  ⟨C9_uniform_invalid_credentials dbC9 "ghost" "pw" (by decide) (by decide)
      (Or.inl (by decide)),
   C9_uniform_invalid_credentials dbC9 "inact" "pw" (by decide) (by decide)
     (Or.inr ⟨{ id := "id-inact", name := "inact", hashedSecret := argonHash "pw",
                isActive := false, roles := [], permissions := [] },
       by decide, Or.inl (by decide)⟩),
   C9_uniform_invalid_credentials dbC9 "alice" "wrong" (by decide) (by decide)
     (Or.inr ⟨{ id := "id-alice", name := "alice", hashedSecret := argonHash "pw",
                isActive := true, roles := [], permissions := [] },
       by decide, Or.inr (by decide)⟩)⟩

theorem splitComma_no_comma :
    ∀ (r : List Char), (∀ c ∈ r, c ≠ ',') → splitComma r = [r] := by
  intro r
  induction r with
  | nil => intro _; rfl
  | cons c cs ih =>
    intro h
    have hc : c ≠ ',' := h c (List.mem_cons_self c cs)
    simp only [splitComma, hc, if_false, reduceIte]
    rw [ih (fun x hx => h x (List.mem_cons_of_mem c hx))]

theorem splitComma_append (a t : List Char) (ha : ∀ c ∈ a, c ≠ ',') :
    splitComma (a ++ ',' :: t) = a :: splitComma t := by
  induction a with
  | nil => simp [splitComma]
  | cons c cs ih =>
    have hc : c ≠ ',' := ha c (List.mem_cons_self c cs)
    simp only [List.cons_append, splitComma, hc, if_false, reduceIte, List.append_eq]
    rw [ih (fun x hx => ha x (List.mem_cons_of_mem c hx))]

theorem rolesRoundTrip :
    ∀ (l : List (List Char)), (∀ r ∈ l, r ≠ []) →
      (∀ r ∈ l, ∀ c ∈ r, c ≠ ',') →
      rolesFromStored (joinComma l) = l
  | [], _, _ => by simp [joinComma, rolesFromStored, splitComma]
  | [r], h1, h2 => by
    have hr : r ≠ [] := h1 r (by simp)
    have hrc : ∀ c ∈ r, c ≠ ',' := h2 r (by simp)
    simp only [joinComma, rolesFromStored]
    rw [splitComma_no_comma r hrc]
    simp [List.isEmpty_iff, hr]
  | r :: b :: t, h1, h2 => by
    have hr : r ≠ [] := h1 r (by simp)
    have hrc : ∀ c ∈ r, c ≠ ',' := h2 r (by simp)
    have ih := rolesRoundTrip (b :: t)
      (fun x hx => h1 x (List.mem_cons_of_mem r hx))
      (fun x hx => h2 x (List.mem_cons_of_mem r hx))
    simp only [joinComma, rolesFromStored]
    rw [splitComma_append r (joinComma (b :: t)) hrc]
    simp only [List.filter_cons]
    have hre : (!r.isEmpty) = true := by simp [List.isEmpty_iff, hr]
    rw [hre, if_pos rfl,
      show (splitComma (joinComma (b :: t))).filter (fun g => !g.isEmpty) = b :: t from ih]

/-- C10: roles are persisted comma-joined and reconstructed by splitting on
commas. First conjunct: every role list the register validator accepts
whose items contain no comma round-trips identically through join and
split. Second and third conjuncts: the validator accepts the single role
consisting of the three characters a comma b, and the token then carries
the two fragments as separate roles. -/
theorem C10_roles_comma_join_split :
    (∀ l : List (List Char), validRolesArray l = true →
        (∀ r ∈ l, ∀ c ∈ r, c ≠ ',') →
        rolesFromStored (joinComma l) = l) ∧
      validRolesArray [['a', ',', 'b']] = true ∧
      rolesFromStored (joinComma [['a', ',', 'b']]) = [['a'], ['b']] := by
  refine ⟨?_, by decide, by decide⟩
  intro l hv hc
  apply rolesRoundTrip l ?_ hc
  intro r hr
  have hall : l.all validRoleItem = true := by
    simp only [validRolesArray, Bool.and_eq_true] at hv
    exact hv.2
  have hitem := List.all_eq_true.mp hall r hr
  simp only [validRoleItem, Bool.and_eq_true, decide_eq_true_eq] at hitem
  intro hnil
  rw [hnil] at hitem
  simp at hitem

/-- Witness for C10: a concrete comma-free role list accepted by the
validator round-trips unchanged. -/
theorem C10_roles_comma_join_split_witness :
    rolesFromStored (joinComma [['x'], ['y']]) = [['x'], ['y']] :=
  C10_roles_comma_join_split.1 [['x'], ['y']] (by decide) (by decide)

/-- C7: reading a secret whose stored dekId differs from the current
default DEK-id returns the decrypted plaintext immediately and fires the
background re-encryption; after the scheduled update completes, the dekId
column of the row and the dekId of the new envelope header both equal the default
DEK-id, and decrypting the stored package still returns the original
plaintext. -/
theorem C7_opportunistic_rotation
    (km : KMState) (db : List SecretRow) (sid : String) (row : SecretRow)
    (P : List Nat) (hdr : PkgHeader) (dk nonce : List Nat)
    (h1 : db.find? (fun s => s.id == sid) = some row)
    (hid : row.id = sid)
    (hsid : sid ≠ "") (hname : row.name ≠ "")
    (h2 : SecretEncryptionService.decryptSecret km row.data row.dekId = .ok (P, hdr))
    (h3 : hdr.dekId ≠ km.defaultDekId)
    (h4 : KeyManagementService.getKey km km.defaultDekId = .ok dk)
    (h5 : dk.length = 32) (h6 : nonce.length = 12)
    (h7 : 1 ≤ km.defaultDekId) (h8 : P ≠ []) :
    SecretService.get km db sid true =
      .ok { name := row.name, data := P, dekId := row.dekId,
            rotationScheduled := true } ∧
    ((SecretService.scheduleRotation km db sid row.name P nonce).find?
        (fun s => s.id == sid)).map (fun s => s.dekId) = some km.defaultDekId ∧
    ((SecretService.scheduleRotation km db sid row.name P nonce).find?
        (fun s => s.id == sid)).map (fun s => s.data.header.dekId) =
      some km.defaultDekId ∧
    ((SecretService.scheduleRotation km db sid row.name P nonce).find?
        (fun s => s.id == sid)).map
      (fun s => SecretEncryptionService.decryptSecret km s.data s.dekId) =
        some (.ok (P, defaultHeader km)) := by
  have hfind : SecretService.findOne db sid true = some row := by
    simpa [SecretService.findOne] using h1
  have hget : SecretService.get km db sid true =
      .ok { name := row.name, data := P, dekId := row.dekId,
            rotationScheduled := true } := by
    simp only [SecretService.get, hsid, if_false, hfind, h2, reduceIte]
    have : (hdr.dekId != km.defaultDekId) = true := by simpa [bne_iff_ne] using h3
    simp [this]
  refine ⟨hget, ?_⟩
  have henc := encryptSecret_ok km P nonce dk h4 h5 h8
  have hany : db.any (fun s => s.id == sid) = true :=
    list_any_of_find? _ db row h1
  have hupd : SecretService.update km db sid row.name P true nonce =
      .ok (db.map (fun s =>
        if s.id == sid then
          { s with
            data := { header := defaultHeader km,
                      payload := nonce ++ gcmEncrypt dk nonce
                        (messagePackEncodeHeader (defaultHeader km)) P }
            dekId := km.defaultDekId
            lastRotation := true || s.lastRotation }
        else s)) := by
    simp only [SecretService.update, hsid, hname, h8, if_false, henc, hany, if_true, reduceIte]
  have hsched : SecretService.scheduleRotation km db sid row.name P nonce =
      db.map (fun s =>
        if s.id == sid then
          { s with
            data := { header := defaultHeader km,
                      payload := nonce ++ gcmEncrypt dk nonce
                        (messagePackEncodeHeader (defaultHeader km)) P }
            dekId := km.defaultDekId
            lastRotation := true || s.lastRotation }
        else s) := by
    simp only [SecretService.scheduleRotation, hupd]
  rw [hsched]
  have hpredf : ∀ x : SecretRow,
      ((if x.id == sid then
          { x with
            data := { header := defaultHeader km,
                      payload := nonce ++ gcmEncrypt dk nonce
                        (messagePackEncodeHeader (defaultHeader km)) P }
            dekId := km.defaultDekId
            lastRotation := true || x.lastRotation }
        else x).id == sid) = (x.id == sid) := by
    intro x
    by_cases hx : x.id == sid
    · simp [hx]
    · simp [hx]
  have hfmap := find?_map_pred _ _ hpredf db row h1
  rw [hfmap]
  have hrow : (row.id == sid) = true := by simp [hid]
  simp only [hrow, if_true, reduceIte, Option.map_some]
  refine ⟨rfl, rfl, ?_⟩
  have hdec := decryptSecret_roundtrip km P nonce dk h4 h5 h6 h7
  simpa using hdec

set_option maxRecDepth 8000 in
/-- Witness for C7 on a concrete state: the secret is stored under DEK 1
while the default DEK is 2; the read returns the plaintext with the
rotation scheduled, and the drained rotation leaves both the row dekId and
the envelope dekId at 2 with the plaintext preserved. -/
theorem C7_opportunistic_rotation_witness :
    SecretService.get kmW dbW "s1" true =
      .ok { name := "s1", data := [7, 8, 9], dekId := 1,
            rotationScheduled := true } ∧
    ((SecretService.scheduleRotation kmW dbW "s1" "s1" [7, 8, 9] iv12).find?
        (fun s => s.id == "s1")).map (fun s => s.dekId) = some kmW.defaultDekId ∧
    ((SecretService.scheduleRotation kmW dbW "s1" "s1" [7, 8, 9] iv12).find?
        (fun s => s.id == "s1")).map (fun s => s.data.header.dekId) =
      some kmW.defaultDekId ∧
    ((SecretService.scheduleRotation kmW dbW "s1" "s1" [7, 8, 9] iv12).find?
        (fun s => s.id == "s1")).map
      (fun s => SecretEncryptionService.decryptSecret kmW s.data s.dekId) =
        some (.ok ([7, 8, 9], defaultHeader kmW)) :=
  C7_opportunistic_rotation kmW dbW "s1" rowW [7, 8, 9] hdrW kB iv12
    (by decide) (by decide) (by decide) (by decide) (by decide) (by decide)
    (by decide) (by decide) (by decide) (by decide) (by decide)
